import Mathlib

/-!
# Verification of `worker-mutex` (mvcbox/node-worker-mutex)

Shallow embedding of the repository's `WorkerMutex` class and its validators.

The repository snapshot contains the current three-cell implementation
(`WorkerMutex` with `STRIDE = 3`, cells `flag`/`owner`/`recursionCount`,
compare-and-swap guard loops on the recursion counter; the version the test
suite `test/WorkerMutex.spec.js` exercises) and an older two-cell revision of
the same class (`STRIDE = 2`, no flag cell, owner ids biased by `+ 1`).
The namespace `WorkerMutex` below embeds the three-cell implementation; the
namespace `WorkerMutexSrc` embeds the parts of the two-cell revision needed
for the owner-identifier property.

Machine integers are modelled as `Int` with explicit two's-complement
reduction (`toInt32`) where the JavaScript semantics truncates; JavaScript
`number` arguments that undergo `Number.isSafeInteger` validation are
modelled by `JsNumber` (finite values as exact rationals — every finite
double is a rational, and all comparisons the code performs on the validated
range are exact in doubles, so the rational model is faithful there).

Statefulness: the three mutable cells of one slot become the record
`MutexState`; each operation is a pure function of the state, describing the
operation run to completion without interference from other threads (a
compare-and-swap whose expected value was just loaded succeeds in that
case, so each CAS retry loop runs exactly one iteration).  Concurrency is
modelled at operation granularity by the step relation `Step` / `Reachable`:
a reachable state is one obtainable from the zero-initialised slot by
complete `lock`/`lockAsync`/`unlock` operations of arbitrary threads
(`lockAsync`'s successful state transitions coincide with `lock`'s: both
either run `incrementRecursionCount` on the owner fast path or CAS the flag
`0 → 1` and store `owner = me`, `count = 1`).  Failed operations raise
before any store, so they do not add states.
-/

namespace WorkerMutex

/-- Error codes of `WorkerMutexError` (src/errors, as used by the class). -/
inductive WorkerMutexError where
  | COUNT_MUST_BE_A_POSITIVE_SAFE_INTEGER
  | COUNT_EXCEEDS_MAX_SUPPORTED_VALUE
  | VALUE_MUST_BE_AN_UNSIGNED_INTEGER
  | HANDLE_MUST_BE_A_SHARED_ARRAY_BUFFER
  | HANDLE_BYTE_LENGTH_IS_NOT_INT32_ALIGNED
  | MUTEX_INDEX_OUT_OF_RANGE
  | MUTEX_IS_NOT_OWNED_BY_CURRENT_THREAD
  | MUTEX_RECURSION_COUNT_UNDERFLOW
  | MUTEX_RECURSION_COUNT_OVERFLOW
  deriving DecidableEq, Repr

/-- Constant `STRIDE = 3`: cells per slot. -/
def STRIDE : Nat := 3

/-- Constant `Int32Array.BYTES_PER_ELEMENT`. -/
def BYTES_PER_ELEMENT : Nat := 4

/-- Constant `BYTES_PER_MUTEX = Int32Array.BYTES_PER_ELEMENT * STRIDE`. -/
def BYTES_PER_MUTEX : Nat := BYTES_PER_ELEMENT * STRIDE

/-- Constant `Number.MAX_SAFE_INTEGER = 2^53 - 1`. -/
def MAX_SAFE_INTEGER : Nat := 9007199254740991

/-- Constant `MAX_MUTEX_COUNT = Math.floor(Number.MAX_SAFE_INTEGER / BYTES_PER_MUTEX)`.
(The double division `9007199254740991 / 12` rounds to a value with the same
floor as the exact quotient, so `Nat` division is the faithful model.) -/
def MAX_MUTEX_COUNT : Nat := MAX_SAFE_INTEGER / BYTES_PER_MUTEX

/-- Constant `MAX_RECURSION_COUNT = 2147483647`. -/
def MAX_RECURSION_COUNT : Int := 2147483647

/-- A JavaScript `number` argument: NaN, the infinities, or a finite value
(every finite double is an exact rational). -/
inductive JsNumber where
  | nan
  | posInf
  | negInf
  | finite (q : ℚ)
  deriving DecidableEq

/-- Predicate `Number.isSafeInteger`: finite, integral, magnitude at most `2^53 - 1`. -/
def isSafeInteger : JsNumber → Bool
  | .finite q => q.den == 1 && q.num.natAbs ≤ MAX_SAFE_INTEGER
  | _ => false

/-- JavaScript `x <= 0` (false on NaN). -/
def jsLeZero : JsNumber → Bool
  | .nan => false
  | .posInf => false
  | .negInf => true
  | .finite q => q ≤ 0

/-- JavaScript `x < 0` (false on NaN). -/
def jsLtZero : JsNumber → Bool
  | .nan => false
  | .posInf => false
  | .negInf => true
  | .finite q => q < 0

/-- JavaScript `x > MAX_MUTEX_COUNT` (false on NaN). -/
def jsGtMaxMutexCount : JsNumber → Bool
  | .nan => false
  | .posInf => true
  | .negInf => false
  | .finite q => (MAX_MUTEX_COUNT : ℚ) < q

/-- A `SharedArrayBuffer`: its byte length and its contents.  JavaScript
guarantees a fresh `SharedArrayBuffer` is zero-filled; `cell i` is the value
of the `i`-th `Int32` cell of the buffer. -/
structure SharedBuffer where
  byteLength : Nat
  cell : Nat → Int

/-- Method `WorkerMutex.createSharedBuffer(count)` (three-cell revision, src/unnamed/part_004
lines 44–54): validates `count`, then allocates `BYTES_PER_MUTEX * count`
zero-filled bytes. -/
def createSharedBuffer (count : JsNumber) : Except WorkerMutexError SharedBuffer :=
  if !isSafeInteger count || jsLeZero count then
    .error .COUNT_MUST_BE_A_POSITIVE_SAFE_INTEGER
  else if jsGtMaxMutexCount count then
    .error .COUNT_EXCEEDS_MAX_SUPPORTED_VALUE
  else
    match count with
    | .finite q => .ok ⟨BYTES_PER_MUTEX * q.num.toNat, fun _ => 0⟩
    | _ => .ok ⟨0, fun _ => 0⟩   -- unreachable: non-finite fails isSafeInteger

/-- Validator `utils.assertUnsignedInteger` (src/utils):
`!Number.isSafeInteger(value) || value < 0` throws. -/
def assertUnsignedInteger (value : JsNumber) : Bool :=
  !isSafeInteger value || jsLtZero value

/-- The `handle` argument to the constructor: a `SharedArrayBuffer` or some
other value (wrong memory kind). -/
inductive HandleArg where
  | sharedArrayBuffer (byteLength : Nat)
  | notShared

/-- A constructed handle: the resolved base cell index and the view length
(`new Int32Array(handle).length = byteLength / 4`, exact after the
alignment check). -/
structure Handle where
  base : Nat
  viewLength : Nat
  deriving DecidableEq, Repr

/-- The `WorkerMutex` constructor (three-cell revision, src/unnamed/part_004
lines 20–42): validates `index`, the memory kind, the alignment and the
range, in that order; on any failure no handle is produced. -/
def mkWorkerMutex (handle : HandleArg) (index : JsNumber) :
    Except WorkerMutexError Handle :=
  if assertUnsignedInteger index then
    .error .VALUE_MUST_BE_AN_UNSIGNED_INTEGER
  else
    match handle with
    | .notShared => .error .HANDLE_MUST_BE_A_SHARED_ARRAY_BUFFER
    | .sharedArrayBuffer byteLength =>
      if byteLength % BYTES_PER_ELEMENT ≠ 0 then
        .error .HANDLE_BYTE_LENGTH_IS_NOT_INT32_ALIGNED
      else
        match index with
        | .finite q =>
          let idx := q.num.toNat
          let base := idx * STRIDE
          if base + (STRIDE - 1) ≥ byteLength / BYTES_PER_ELEMENT then
            .error .MUTEX_INDEX_OUT_OF_RANGE
          else
            .ok ⟨base, byteLength / BYTES_PER_ELEMENT⟩
        | _ => .error .MUTEX_INDEX_OUT_OF_RANGE   -- unreachable: non-finite fails assertUnsignedInteger

/-- One slot's three `Int32` cells: `flag` (LOCK_OFFSET 0), `owner`
(OWNER_OFFSET 1), `recursionCount` (COUNT_OFFSET 2). -/
structure MutexState where
  flag : Int
  owner : Int
  count : Int
  deriving DecidableEq, Repr

/-- The zero-initialised slot of a fresh shared buffer. -/
def initState : MutexState := ⟨0, 0, 0⟩

/-- Method `incrementRecursionCount` (src/unnamed/part_004 lines 94–112), run to
completion without interference: the loaded `count` is the state's count and
the CAS then succeeds, so the loop body runs once.  `count ≤ 0` is
underflow, `count ≥ MAX_RECURSION_COUNT` is overflow, otherwise the counter
becomes `count + 1`. -/
def incrementRecursionCount (count : Int) : Except WorkerMutexError Int :=
  if count ≤ 0 then .error .MUTEX_RECURSION_COUNT_UNDERFLOW
  else if count ≥ MAX_RECURSION_COUNT then .error .MUTEX_RECURSION_COUNT_OVERFLOW
  else .ok (count + 1)

/-- Method `lock()` (src/unnamed/part_004 lines 114–147) by thread identity `me`,
run to completion without interference.  `none` models the branch that
parks on `Atomics.wait` (another thread holds the slot): without that
thread releasing, the call never returns. -/
def lock (me : Int) (s : MutexState) : Option (Except WorkerMutexError MutexState) :=
  if s.flag = 1 ∧ s.owner = me then
    some ((incrementRecursionCount s.count).map (fun c => { s with count := c }))
  else if s.flag = 0 then
    some (.ok ⟨1, me, 1⟩)
  else
    none

/-- Method `unlock()` (src/unnamed/part_004 lines 242–279) by thread identity `me`,
run to completion without interference.  Returns the raised error (if any),
the resulting slot state, and whether `Atomics.notify` was invoked.  Both
error paths raise before any store, so the state is returned unchanged
there. -/
def unlock (me : Int) (s : MutexState) :
    Option WorkerMutexError × MutexState × Bool :=
  if ¬(s.flag = 1 ∧ s.owner = me) then
    (some .MUTEX_IS_NOT_OWNED_BY_CURRENT_THREAD, s, false)
  else if s.count ≤ 0 then
    (some .MUTEX_RECURSION_COUNT_UNDERFLOW, s, false)
  else if s.count - 1 > 0 then
    (none, { s with count := s.count - 1 }, false)
  else
    (none, ⟨0, 0, 0⟩, true)

/-- Iterated calls: `n` sequential `lock()` calls by the same thread: stops at the first
call that blocks (`none`) or throws. -/
def lockN (me : Int) : Nat → MutexState → Option (Except WorkerMutexError MutexState)
  | 0, s => some (.ok s)
  | n + 1, s =>
    match lock me s with
    | none => none
    | some (.error e) => some (.error e)
    | some (.ok s') => lockN me n s'

/-- Iterated calls: `n` sequential `unlock()` calls by the same thread: stops at the first
call that throws, returning the error and the state at that point. -/
def unlockN (me : Int) : Nat → MutexState → Option WorkerMutexError × MutexState
  | 0, s => (none, s)
  | n + 1, s =>
    match unlock me s with
    | (some e, s', _) => (some e, s')
    | (none, s', _) => unlockN me n s'

/-- One complete, successful operation on the slot by a thread `me`:
a `lock()` (or `lockAsync()`, whose successful transitions are the same
two: owner fast path through `incrementRecursionCount`, or CAS of the flag
`0 → 1` followed by the `owner`/`count` stores) or an `unlock()`.
Operations that raise do not change the state, and a parked `lock` has not
changed the state either, so successful completions generate every
reachable state. -/
inductive Step (me : Int) (s : MutexState) : MutexState → Prop where
  | lockStep (s' : MutexState) : lock me s = some (.ok s') → Step me s s'
  | unlockStep (s' : MutexState) (b : Bool) :
      unlock me s = (none, s', b) → Step me s s'

/-- States reachable from the zero-initialised slot by complete
`lock`/`lockAsync`/`unlock` operations of arbitrary threads. -/
inductive Reachable : MutexState → Prop where
  | init : Reachable initState
  | step {s s' : MutexState} (me : Int) : Reachable s → Step me s s' → Reachable s'

/-- What a thread observes when it atomically loads the flag and owner
cells of slot state `s`: the pair `(f, o)` it reads. -/
def observes (s : MutexState) (f o : Int) : Prop := f = s.flag ∧ o = s.owner

end WorkerMutex

namespace WorkerMutexSrc

/-!
The two-cell revision `src/src/WorkerMutex.ts` (`STRIDE = 2`, cells `owner`,
`count`; `owner = 0` denotes the unlocked slot).  Only the pieces the
owner-identifier property needs are embedded: `selfId` and the fast-path
test of `lock()`/`lockAsync()`, plus the `Int32` truncation that
`Atomics.compareExchange`/`Atomics.store` apply to the stored value. -/

/-- JavaScript `ToInt32` of an integer: reduce mod `2^32` into
`[-2^31, 2^31)`. -/
def toInt32 (n : Int) : Int :=
  let m := n % 4294967296
  if m < 2147483648 then m else m - 4294967296

/-- Method `selfId()` (src/src/WorkerMutex.ts lines 60–62): `(threadId | 0) + 1`.
`threadId` is a non-negative integer; `| 0` is `ToInt32`. -/
def selfId (threadId : Nat) : Int := toInt32 threadId + 1

/-- The owner-cell value `lock()`/`lockAsync()` store on acquisition
(src/src/WorkerMutex.ts line 79: `Atomics.compareExchange(a, oi, 0, me)`
stores `ToInt32(me)` into the `Int32Array`). -/
def storedOwner (threadId : Nat) : Int := toInt32 (selfId threadId)

/-- The fast-path test of `lock()`/`lockAsync()`
(src/src/WorkerMutex.ts line 73: `owner === me`). -/
def lockFastPath (owner me : Int) : Bool := owner == me

end WorkerMutexSrc

namespace WorkerMutex

/-- Spec-side predicate: the spec's "positive safe integer" — a finite,
integral value `n` with `1 ≤ n ≤ 2^53 - 1`. -/
def IsPositiveSafeInteger (x : JsNumber) : Prop :=
  ∃ n : Nat, 0 < n ∧ n ≤ MAX_SAFE_INTEGER ∧ x = .finite n

/-- Spec-side predicate: the spec's "non-negative safe integer" — a finite,
integral value `n` with `0 ≤ n ≤ 2^53 - 1`. -/
def IsUnsignedSafeInteger (x : JsNumber) : Prop :=
  ∃ n : Nat, n ≤ MAX_SAFE_INTEGER ∧ x = .finite n

/-- One atomic mutation or notification on the slot's cells, in program
order. -/
inductive CellEvent where
  | casCount (old new : Int)
  | storeCount (v : Int)
  | storeOwner (v : Int)
  | storeFlag (v : Int)
  | notifyFlag (waiters : Nat)
  deriving DecidableEq, Repr

/-- The sequence of cell mutations and notifications `unlock()`
(src/unnamed/part_004 lines 242–279) performs, in program order, when run
to completion without interference: nothing on the error paths (both raise
before any store), the counter CAS alone when the new depth stays positive,
and the CAS followed by the three clearing stores and one
`Atomics.notify(a, fi, 1)` when the depth reaches zero. -/
def unlockEvents (me : Int) (s : MutexState) : List CellEvent :=
  if ¬(s.flag = 1 ∧ s.owner = me) then []
  else if s.count ≤ 0 then []
  else if s.count - 1 > 0 then [.casCount s.count (s.count - 1)]
  else
    [.casCount s.count (s.count - 1), .storeCount 0, .storeOwner 0,
     .storeFlag 0, .notifyFlag 1]

/-- Whether an event is an `Atomics.notify` invocation. -/
def isNotify : CellEvent → Bool
  | .notifyFlag _ => true
  | _ => false

end WorkerMutex

namespace WorkerMutex

lemma isSafeInteger_natCast (n : Nat) (h : n ≤ MAX_SAFE_INTEGER) :
    isSafeInteger (.finite n) = true := by
  simp [isSafeInteger, h]

lemma jsLeZero_natCast_pos (n : Nat) (h : 0 < n) :
    jsLeZero (.finite n) = false := by
  simp [jsLeZero]
  omega

lemma posSafeInt_char (x : JsNumber) :
    IsPositiveSafeInteger x ↔ (isSafeInteger x = true ∧ jsLeZero x = false) := by
  constructor
  · rintro ⟨n, hn, hM, rfl⟩
    exact ⟨isSafeInteger_natCast n hM, jsLeZero_natCast_pos n hn⟩
  · rintro ⟨hs, hl⟩
    cases x with
    | nan => simp [isSafeInteger] at hs
    | posInf => simp [isSafeInteger] at hs
    | negInf => simp [isSafeInteger] at hs
    | finite q =>
      simp [isSafeInteger] at hs
      simp [jsLeZero] at hl
      obtain ⟨hden, habs⟩ := hs
      have hq : q = (q.num.toNat : ℚ) := by
        have h1 : (q.num : ℚ) = q := (Rat.den_eq_one_iff q).mp hden
        have h2 : 0 ≤ q.num := (Rat.num_pos.mpr hl).le
        rw [← h1]
        norm_cast
        exact (Int.toNat_of_nonneg h2).symm
      refine ⟨q.num.toNat, ?_, ?_, congrArg JsNumber.finite hq⟩
      · have h2 : 0 < q.num := Rat.num_pos.mpr hl
        omega
      · omega

lemma unsignedSafeInt_char (x : JsNumber) :
    IsUnsignedSafeInteger x ↔ assertUnsignedInteger x = false := by
  constructor
  · rintro ⟨n, hM, rfl⟩
    have hs := isSafeInteger_natCast n hM
    simp [assertUnsignedInteger, hs, jsLtZero]
  · intro h
    cases x with
    | nan => simp [assertUnsignedInteger, isSafeInteger] at h
    | posInf => simp [assertUnsignedInteger, isSafeInteger] at h
    | negInf => simp [assertUnsignedInteger, isSafeInteger] at h
    | finite q =>
      simp [assertUnsignedInteger, isSafeInteger, jsLtZero] at h
      obtain ⟨⟨hden, habs⟩, hge⟩ := h
      have hq : q = (q.num.toNat : ℚ) := by
        have h1 : (q.num : ℚ) = q := (Rat.den_eq_one_iff q).mp hden
        have h2 : 0 ≤ q.num := Rat.num_nonneg.mpr hge
        rw [← h1]
        norm_cast
        exact (Int.toNat_of_nonneg h2).symm
      exact ⟨q.num.toNat, by omega, congrArg JsNumber.finite hq⟩

/-- C7: `createSharedBuffer(count)` fails with
`COUNT_MUST_BE_A_POSITIVE_SAFE_INTEGER` for every `count` that is not a
positive safe integer (non-integral, non-positive, non-finite, beyond
`2^53 - 1`), fails with `COUNT_EXCEEDS_MAX_SUPPORTED_VALUE` for every
positive safe integer exceeding `floor(MAX_SAFE_INTEGER / BYTES_PER_MUTEX)`,
and succeeds for every other count. -/
theorem createSharedBuffer_validation (x : JsNumber) :
    (¬ IsPositiveSafeInteger x →
      createSharedBuffer x = .error .COUNT_MUST_BE_A_POSITIVE_SAFE_INTEGER) ∧
    (∀ n : Nat, x = .finite n → 0 < n → n ≤ MAX_SAFE_INTEGER →
      MAX_MUTEX_COUNT < n →
      createSharedBuffer x = .error .COUNT_EXCEEDS_MAX_SUPPORTED_VALUE) ∧
    (∀ n : Nat, x = .finite n → 0 < n → n ≤ MAX_MUTEX_COUNT →
      ∃ b, createSharedBuffer x = .ok b) := by
  refine ⟨?_, ?_, ?_⟩
  · intro hx
    rw [posSafeInt_char] at hx
    have hcond : (!isSafeInteger x || jsLeZero x) = true := by
      cases hs : isSafeInteger x <;> cases hl : jsLeZero x <;> simp_all
    simp [createSharedBuffer, hcond]
  · rintro n rfl hn hM hgt
    have hs := isSafeInteger_natCast n hM
    have hl := jsLeZero_natCast_pos n hn
    have hg : jsGtMaxMutexCount (.finite n) = true := by
      simp [jsGtMaxMutexCount]
      exact_mod_cast hgt
    simp [createSharedBuffer, hs, hl, hg]
  · rintro n rfl hn hM
    have hM' : n ≤ MAX_SAFE_INTEGER := by
      have : MAX_MUTEX_COUNT ≤ MAX_SAFE_INTEGER := by
        norm_num [MAX_MUTEX_COUNT, MAX_SAFE_INTEGER, BYTES_PER_MUTEX,
          BYTES_PER_ELEMENT, STRIDE]
      omega
    have hs := isSafeInteger_natCast n hM'
    have hl := jsLeZero_natCast_pos n hn
    have hg : jsGtMaxMutexCount (.finite n) = false := by
      simp [jsGtMaxMutexCount]
      exact_mod_cast hM
    exact ⟨⟨BYTES_PER_MUTEX * n, fun _ => 0⟩,
      by simp [createSharedBuffer, hs, hl, hg]⟩

/-- Witness for `createSharedBuffer_validation`, at the test suite's inputs
`0`, `Number.MAX_SAFE_INTEGER` and `1`. -/
theorem createSharedBuffer_validation_witness :
    createSharedBuffer (.finite 0) = .error .COUNT_MUST_BE_A_POSITIVE_SAFE_INTEGER ∧
    createSharedBuffer (.finite 9007199254740991) =
      .error .COUNT_EXCEEDS_MAX_SUPPORTED_VALUE ∧
    ∃ b, createSharedBuffer (.finite 1) = .ok b := by
  refine ⟨(createSharedBuffer_validation (.finite 0)).1 ?_,
    (createSharedBuffer_validation _).2.1 9007199254740991 (by norm_num)
      (by norm_num) (by norm_num [MAX_SAFE_INTEGER])
      (by norm_num [MAX_MUTEX_COUNT, MAX_SAFE_INTEGER, BYTES_PER_MUTEX,
        BYTES_PER_ELEMENT, STRIDE]),
    (createSharedBuffer_validation _).2.2 1 (by norm_num) (by norm_num)
      (by norm_num [MAX_MUTEX_COUNT, MAX_SAFE_INTEGER, BYTES_PER_MUTEX,
        BYTES_PER_ELEMENT, STRIDE])⟩
  rintro ⟨n, hn, -, h⟩
  simp only [JsNumber.finite.injEq] at h
  have : (n : ℚ) = 0 := h.symm
  have hn0 : n = 0 := by exact_mod_cast this
  omega

/-- C3: for every `count` that passes validation, `createSharedBuffer(count)`
returns a buffer of exactly `count * 3` Int32 cells, i.e. `count * 3 * 4`
bytes, with every cell zero. -/
theorem createSharedBuffer_size (n : Nat) (h1 : 0 < n) (h2 : n ≤ MAX_MUTEX_COUNT) :
    ∃ b : SharedBuffer,
      createSharedBuffer (.finite n) = .ok b ∧
      b.byteLength = n * 3 * 4 ∧
      b.byteLength / BYTES_PER_ELEMENT = n * 3 ∧
      ∀ i : Nat, b.cell i = 0 := by
  have hM : n ≤ MAX_SAFE_INTEGER := by
    have : MAX_MUTEX_COUNT ≤ MAX_SAFE_INTEGER := by
      norm_num [MAX_MUTEX_COUNT, MAX_SAFE_INTEGER, BYTES_PER_MUTEX,
        BYTES_PER_ELEMENT, STRIDE]
    omega
  have hs := isSafeInteger_natCast n hM
  have hl := jsLeZero_natCast_pos n h1
  have hg : jsGtMaxMutexCount (.finite n) = false := by
    simp [jsGtMaxMutexCount]
    exact_mod_cast h2
  refine ⟨⟨BYTES_PER_MUTEX * n, fun _ => 0⟩, ?_, ?_, ?_, fun i => rfl⟩
  · simp [createSharedBuffer, hs, hl, hg]
  · norm_num [BYTES_PER_MUTEX, BYTES_PER_ELEMENT, STRIDE]
    ring
  · norm_num [BYTES_PER_MUTEX, BYTES_PER_ELEMENT, STRIDE]
    omega

/-- Witness for `createSharedBuffer_size` at `count = 4` (the test suite's
size check). -/
theorem createSharedBuffer_size_witness :
    ∃ b : SharedBuffer,
      createSharedBuffer (.finite 4) = .ok b ∧
      b.byteLength = 4 * 3 * 4 ∧
      b.byteLength / BYTES_PER_ELEMENT = 4 * 3 ∧
      ∀ i : Nat, b.cell i = 0 := by
  have h := createSharedBuffer_size 4 (by norm_num)
    (by norm_num [MAX_MUTEX_COUNT, MAX_SAFE_INTEGER, BYTES_PER_MUTEX,
      BYTES_PER_ELEMENT, STRIDE])
  exact_mod_cast h

end WorkerMutex

namespace WorkerMutex

/-- C8: handle construction validates, in order: a non-unsigned-safe-integer
index, the memory kind, the Int32 alignment of the byte length, and that
`base + 2` lies within the view's cell count; each failure raises the
corresponding error and produces no handle (`Except.error` carries none). -/
theorem mkWorkerMutex_validation (handle : HandleArg) (index : JsNumber) :
    (¬ IsUnsignedSafeInteger index →
      mkWorkerMutex handle index = .error .VALUE_MUST_BE_AN_UNSIGNED_INTEGER) ∧
    (IsUnsignedSafeInteger index →
      mkWorkerMutex .notShared index = .error .HANDLE_MUST_BE_A_SHARED_ARRAY_BUFFER) ∧
    (∀ (n L : Nat), index = .finite n → n ≤ MAX_SAFE_INTEGER →
      L % BYTES_PER_ELEMENT ≠ 0 →
      mkWorkerMutex (.sharedArrayBuffer L) index =
        .error .HANDLE_BYTE_LENGTH_IS_NOT_INT32_ALIGNED) ∧
    (∀ (n L : Nat), index = .finite n → n ≤ MAX_SAFE_INTEGER →
      L % BYTES_PER_ELEMENT = 0 →
      n * STRIDE + (STRIDE - 1) ≥ L / BYTES_PER_ELEMENT →
      mkWorkerMutex (.sharedArrayBuffer L) index =
        .error .MUTEX_INDEX_OUT_OF_RANGE) := by
  refine ⟨?_, ?_, ?_, ?_⟩
  · intro hx
    have ha : assertUnsignedInteger index = true := by
      cases h : assertUnsignedInteger index
      · exact absurd ((unsignedSafeInt_char index).mpr h) hx
      · rfl
    simp [mkWorkerMutex, ha]
  · intro hx
    have ha : assertUnsignedInteger index = false :=
      (unsignedSafeInt_char index).mp hx
    simp [mkWorkerMutex, ha]
  · rintro n L rfl hM hL
    have ha : assertUnsignedInteger (.finite n) = false :=
      (unsignedSafeInt_char _).mp ⟨n, hM, rfl⟩
    simp [mkWorkerMutex, ha, hL]
  · rintro n L rfl hM hL hrange
    have ha : assertUnsignedInteger (.finite n) = false :=
      (unsignedSafeInt_char _).mp ⟨n, hM, rfl⟩
    simp [mkWorkerMutex, ha, hL, hrange]

/-- Witness for `mkWorkerMutex_validation`: a NaN index, index 0 on a
non-shared buffer, a 10-byte (misaligned) buffer, and index 2 on a one-slot
(12-byte) buffer, mirroring the test suite. -/
theorem mkWorkerMutex_validation_witness :
    mkWorkerMutex (.sharedArrayBuffer 12) .nan =
      .error .VALUE_MUST_BE_AN_UNSIGNED_INTEGER ∧
    mkWorkerMutex .notShared (.finite 0) =
      .error .HANDLE_MUST_BE_A_SHARED_ARRAY_BUFFER ∧
    mkWorkerMutex (.sharedArrayBuffer 10) (.finite 0) =
      .error .HANDLE_BYTE_LENGTH_IS_NOT_INT32_ALIGNED ∧
    mkWorkerMutex (.sharedArrayBuffer 12) (.finite 2) =
      .error .MUTEX_INDEX_OUT_OF_RANGE := by
  refine ⟨(mkWorkerMutex_validation (.sharedArrayBuffer 12) .nan).1 ?_,
    (mkWorkerMutex_validation .notShared (.finite 0)).2.1
      ⟨0, by norm_num, by norm_num⟩,
    (mkWorkerMutex_validation (.sharedArrayBuffer 10) (.finite 0)).2.2.1 0 10
      (by norm_num) (by norm_num) (by norm_num [BYTES_PER_ELEMENT]),
    (mkWorkerMutex_validation (.sharedArrayBuffer 12) (.finite 2)).2.2.2 2 12
      (by norm_num) (by norm_num [MAX_SAFE_INTEGER])
      (by norm_num [BYTES_PER_ELEMENT])
      (by norm_num [BYTES_PER_ELEMENT, STRIDE])⟩
  rintro ⟨n, -, h⟩
  exact JsNumber.noConfusion h

/-- C4: `unlock()` by the current owner guards its decrement: a loaded
recursion count `≤ 0` raises `MUTEX_RECURSION_COUNT_UNDERFLOW` with the
state unchanged, and a successful decrement lowers the count by exactly one
and never yields a negative depth. -/
theorem unlock_cas_guard (me : Int) (s : MutexState)
    (hf : s.flag = 1) (ho : s.owner = me) :
    (s.count ≤ 0 →
      unlock me s = (some .MUTEX_RECURSION_COUNT_UNDERFLOW, s, false)) ∧
    (0 < s.count →
      (unlock me s).1 = none ∧
      ((unlock me s).2.1).count = s.count - 1 ∧
      0 ≤ ((unlock me s).2.1).count) := by
  constructor
  · intro hc
    simp [unlock, hf, ho, hc]
  · intro hc
    have hc' : ¬ s.count ≤ 0 := by omega
    by_cases h1 : s.count - 1 > 0
    · simp [unlock, hf, ho, hc', h1]
      omega
    · have h2 : s.count = 1 := by omega
      simp [unlock, hf, ho, hc', h2]

/-- Witness for `unlock_cas_guard`: a corrupted zero count underflows; a
depth-2 hold decrements to 1. -/
theorem unlock_cas_guard_witness :
    unlock 5 ⟨1, 5, 0⟩ = (some .MUTEX_RECURSION_COUNT_UNDERFLOW, ⟨1, 5, 0⟩, false) ∧
    ((unlock 5 ⟨1, 5, 2⟩).1 = none ∧
      ((unlock 5 ⟨1, 5, 2⟩).2.1).count = (⟨1, 5, 2⟩ : MutexState).count - 1 ∧
      0 ≤ ((unlock 5 ⟨1, 5, 2⟩).2.1).count) :=
  ⟨(unlock_cas_guard 5 ⟨1, 5, 0⟩ rfl rfl).1 (by norm_num),
   (unlock_cas_guard 5 ⟨1, 5, 2⟩ rfl rfl).2 (by norm_num)⟩

/-- C5: a re-entrant `lock()` (the calling thread already owns the slot)
increments through the guarded CAS loop: a loaded count `≤ 0` raises
`MUTEX_RECURSION_COUNT_UNDERFLOW`, a loaded count `≥ 2^31 - 1` raises
`MUTEX_RECURSION_COUNT_OVERFLOW`, and only otherwise the count is
incremented and the call returns. -/
theorem lock_recursive_guards (me : Int) (s : MutexState)
    (hf : s.flag = 1) (ho : s.owner = me) :
    (s.count ≤ 0 →
      lock me s = some (.error .MUTEX_RECURSION_COUNT_UNDERFLOW)) ∧
    (0 < s.count → MAX_RECURSION_COUNT ≤ s.count →
      lock me s = some (.error .MUTEX_RECURSION_COUNT_OVERFLOW)) ∧
    (0 < s.count → s.count < MAX_RECURSION_COUNT →
      lock me s = some (.ok { s with count := s.count + 1 })) := by
  refine ⟨fun hc => ?_, fun hpos hc => ?_, fun h1 h2 => ?_⟩
  · simp [lock, hf, ho, incrementRecursionCount, hc, Except.map]
  · have hc' : ¬ s.count ≤ 0 := by omega
    have hge : s.count ≥ MAX_RECURSION_COUNT := hc
    simp [lock, hf, ho, incrementRecursionCount, hc', hge, Except.map]
  · have hc' : ¬ s.count ≤ 0 := by omega
    have hge : ¬ s.count ≥ MAX_RECURSION_COUNT := by omega
    simp [lock, hf, ho, incrementRecursionCount, hc', hge, Except.map]

/-- Witness for `lock_recursive_guards`: the test suite's corruption
scenarios (count forced to 0, count forced to `2^31 - 1`) and a normal
re-entrant acquisition. -/
theorem lock_recursive_guards_witness :
    lock 5 ⟨1, 5, 0⟩ = some (.error .MUTEX_RECURSION_COUNT_UNDERFLOW) ∧
    lock 5 ⟨1, 5, 2147483647⟩ = some (.error .MUTEX_RECURSION_COUNT_OVERFLOW) ∧
    lock 5 ⟨1, 5, 1⟩ = some (.ok ⟨1, 5, 1 + 1⟩) :=
  ⟨(lock_recursive_guards 5 ⟨1, 5, 0⟩ rfl rfl).1 (by norm_num),
   (lock_recursive_guards 5 ⟨1, 5, 2147483647⟩ rfl rfl).2.1 (by norm_num)
     (by norm_num [MAX_RECURSION_COUNT]),
   (lock_recursive_guards 5 ⟨1, 5, 1⟩ rfl rfl).2.2 (by norm_num)
     (by norm_num [MAX_RECURSION_COUNT])⟩

/-- C6: `unlock()` from a non-owning thread, or on a slot whose flag is not
1, raises `MUTEX_IS_NOT_OWNED_BY_CURRENT_THREAD` and mutates nothing: the
returned slot state is the input state and no notification happens. -/
theorem unlock_nonowner_frame (me : Int) (s : MutexState)
    (h : ¬(s.flag = 1 ∧ s.owner = me)) :
    unlock me s = (some .MUTEX_IS_NOT_OWNED_BY_CURRENT_THREAD, s, false) := by
  simp [unlock, h]

/-- Witness for `unlock_nonowner_frame`: unlocking a fresh slot (the test
suite's scenario) and unlocking another thread's slot. -/
theorem unlock_nonowner_frame_witness :
    unlock 7 initState =
      (some .MUTEX_IS_NOT_OWNED_BY_CURRENT_THREAD, initState, false) ∧
    unlock 7 ⟨1, 5, 3⟩ =
      (some .MUTEX_IS_NOT_OWNED_BY_CURRENT_THREAD, ⟨1, 5, 3⟩, false) :=
  ⟨unlock_nonowner_frame 7 initState (by simp [initState]),
   unlock_nonowner_frame 7 ⟨1, 5, 3⟩ (by norm_num)⟩

/-- C10: a successful `unlock()` leaving a positive depth changes only the
count cell and never notifies; when the depth reaches zero the events are
exactly the counter CAS, the three clearing stores, and then a single
`Atomics.notify` — one notification per unlock, only at depth zero, after
the cells are cleared. -/
theorem unlock_frame_notify (me : Int) (s : MutexState)
    (hf : s.flag = 1) (ho : s.owner = me) (_hc : 0 < s.count) :
    (1 < s.count →
      unlock me s = (none, ⟨s.flag, s.owner, s.count - 1⟩, false) ∧
      (unlockEvents me s).countP isNotify = 0) ∧
    (s.count = 1 →
      unlock me s = (none, ⟨0, 0, 0⟩, true) ∧
      unlockEvents me s =
        [.casCount 1 0, .storeCount 0, .storeOwner 0, .storeFlag 0,
         .notifyFlag 1]) := by
  constructor
  · intro h1
    have hc' : ¬ s.count ≤ 0 := by omega
    have h1' : s.count - 1 > 0 := by omega
    constructor
    · simp [unlock, hf, ho, hc', h1']
    · simp [unlockEvents, isNotify, hf, ho, hc', h1']
  · intro h1
    constructor
    · simp [unlock, hf, ho, h1]
    · simp [unlockEvents, hf, ho, h1]

/-- Witness for `unlock_frame_notify`: a depth-3 hold (count-only change, no
notify) and a final release (clears then notifies once). -/
theorem unlock_frame_notify_witness :
    (unlock 5 ⟨1, 5, 3⟩ = (none, ⟨1, 5, 3 - 1⟩, false) ∧
      (unlockEvents 5 ⟨1, 5, 3⟩).countP isNotify = 0) ∧
    (unlock 5 ⟨1, 5, 1⟩ = (none, ⟨0, 0, 0⟩, true) ∧
      unlockEvents 5 ⟨1, 5, 1⟩ =
        [.casCount 1 0, .storeCount 0, .storeOwner 0, .storeFlag 0,
         .notifyFlag 1]) :=
  ⟨(unlock_frame_notify 5 ⟨1, 5, 3⟩ rfl rfl (by norm_num)).1 (by norm_num),
   (unlock_frame_notify 5 ⟨1, 5, 1⟩ rfl rfl (by norm_num)).2 rfl⟩

end WorkerMutex

namespace WorkerMutex

lemma step_preserves_inv {me : Int} {s s' : MutexState}
    (st : Step me s s') : 0 < s'.count ↔ s'.flag = 1 := by
  cases st with
  | lockStep hl =>
    unfold lock at hl
    split_ifs at hl with h1 h2
    · simp only [Option.some.injEq] at hl
      unfold incrementRecursionCount at hl
      split_ifs at hl with hc1 hc2
      · simp [Except.map] at hl
      · simp [Except.map] at hl
      · simp [Except.map] at hl
        subst hl
        simp [h1.1]
        omega
    · simp only [Option.some.injEq, Except.ok.injEq] at hl
      subst hl
      norm_num
  | unlockStep b hu =>
    by_cases h1 : s.flag = 1 ∧ s.owner = me
    · by_cases h2 : s.count ≤ 0
      · simp [unlock, h1, h2] at hu
      · by_cases h3 : s.count - 1 > 0
        · simp [unlock, h1, h2, h3] at hu
          obtain ⟨hs, -⟩ := hu
          subst hs
          constructor
          · intro _
            rfl
          · intro _
            simpa using h3
        · simp [unlock, h1, h2, h3] at hu
          obtain ⟨hs, -⟩ := hu
          subst hs
          norm_num
    · simp [unlock, h1] at hu

/-- C1: in every reachable slot state — starting from the zero-initialised
block and applying any sequence of complete `lock`/`lockAsync`/`unlock`
operations by any threads — the recursion count is positive exactly when
the flag is 1, and two threads observing the flag as 1 at the same state
observe the same owner value. -/
theorem mutex_invariant (s : MutexState) (h : Reachable s) :
    (0 < s.count ↔ s.flag = 1) ∧
    (∀ f₁ o₁ f₂ o₂ : Int, observes s f₁ o₁ → observes s f₂ o₂ →
      f₁ = 1 → f₂ = 1 → o₁ = o₂) := by
  constructor
  · induction h with
    | init => simp [initState]
    | step me hr st ih => exact step_preserves_inv st
  · rintro f₁ o₁ f₂ o₂ ⟨-, ho₁⟩ ⟨-, ho₂⟩ - -
    rw [ho₁, ho₂]

/-- Witness for `mutex_invariant`: the state after one `lock()` by thread 7
on a fresh slot is reachable and satisfies the invariant. -/
theorem mutex_invariant_witness :
    0 < (⟨1, 7, 1⟩ : MutexState).count ↔ (⟨1, 7, 1⟩ : MutexState).flag = 1 :=
  (mutex_invariant ⟨1, 7, 1⟩
    (Reachable.step 7 Reachable.init
      (Step.lockStep ⟨1, 7, 1⟩ (by simp [lock, initState])))).1

end WorkerMutex


deriving instance DecidableEq for Except

namespace WorkerMutex

lemma lockN_succ (me : Int) (n : Nat) (s : MutexState) :
    lockN me (n + 1) s = (match lock me s with
      | none => none
      | some (.error e) => some (.error e)
      | some (.ok s') => lockN me n s') := rfl

lemma unlockN_succ (me : Int) (n : Nat) (s : MutexState) :
    unlockN me (n + 1) s = (match unlock me s with
      | (some e, s', _) => (some e, s')
      | (none, s', _) => unlockN me n s') := rfl

lemma lockN_ok_then (me : Int) (m k : Nat) (s s₁ : MutexState)
    (h : lockN me m s = some (.ok s₁)) :
    lockN me (m + k) s = lockN me k s₁ := by
  induction m generalizing s with
  | zero =>
    simp [lockN] at h
    subst h
    simp
  | succ n ih =>
    have hn : n + 1 + k = (n + k) + 1 := by omega
    rw [hn, lockN_succ]
    rw [lockN_succ] at h
    cases hl : lock me s with
    | none =>
      rw [hl] at h
      simp at h
    | some r =>
      cases r with
      | error e =>
        rw [hl] at h
        simp at h
      | ok s' =>
        rw [hl] at h
        simpa using ih s' (by simpa using h)

lemma unlockN_none_then (me : Int) (m k : Nat) (s s₁ : MutexState)
    (h : unlockN me m s = (none, s₁)) :
    unlockN me (m + k) s = unlockN me k s₁ := by
  induction m generalizing s with
  | zero =>
    simp [unlockN] at h
    subst h
    simp
  | succ n ih =>
    have hn : n + 1 + k = (n + k) + 1 := by omega
    rw [hn, unlockN_succ]
    rw [unlockN_succ] at h
    rcases hu : unlock me s with ⟨e, s', b⟩
    cases e with
    | some err =>
      rw [hu] at h
      simp at h
    | none =>
      rw [hu] at h
      simpa using ih s' (by simpa using h)

lemma lockN_reenter (me : Int) (n : Nat) (c : Int) (h0 : 0 < c)
    (h : c + n ≤ MAX_RECURSION_COUNT) :
    lockN me n ⟨1, me, c⟩ = some (.ok ⟨1, me, c + n⟩) := by
  induction n generalizing c with
  | zero => simp [lockN]
  | succ n ih =>
    have hlt : ¬ c ≥ MAX_RECURSION_COUNT := by
      push_cast at h
      omega
    have hle : ¬ c ≤ 0 := by omega
    have hlock : lock me ⟨1, me, c⟩ = some (.ok ⟨1, me, c + 1⟩) := by
      simp [lock, incrementRecursionCount, hle, hlt, Except.map]
    rw [lockN_succ, hlock]
    have hrec := ih (c + 1) (by omega) (by push_cast at h ⊢; omega)
    have harith : c + 1 + (n : Int) = c + ((n + 1 : Nat) : Int) := by
      push_cast
      ring
    simpa [harith] using hrec

lemma unlockN_dec (me : Int) (k : Nat) (c : Int) (h : (k : Int) < c) :
    unlockN me k ⟨1, me, c⟩ = (none, ⟨1, me, c - k⟩) := by
  induction k generalizing c with
  | zero => simp [unlockN]
  | succ n ih =>
    have h1 : ¬ c ≤ 0 := by push_cast at h; omega
    have h2 : c - 1 > 0 := by push_cast at h; omega
    have hu : unlock me ⟨1, me, c⟩ = (none, ⟨1, me, c - 1⟩, false) := by
      simp [unlock, h1, h2]
    rw [unlockN_succ, hu]
    have hrec := ih (c - 1) (by push_cast at h ⊢; omega)
    have harith : c - 1 - (n : Int) = c - ((n + 1 : Nat) : Int) := by
      push_cast
      ring
    simpa [harith] using hrec

/-- C2, corrected: the recursion counter caps at `2^31 - 1`, so at
`N = 2^31` the claim fails — the `2147483648`-th sequential `lock()` by the
same thread raises `MUTEX_RECURSION_COUNT_OVERFLOW` instead of leaving
`recursionCount = N`. -/
theorem lockN_overflow_counterexample :
    lockN 7 2147483648 initState =
      some (.error .MUTEX_RECURSION_COUNT_OVERFLOW) := by
  have s1 : lockN 7 (0 + 1) initState = some (.ok ⟨1, 7, 1⟩) := by decide
  have s2 : lockN 7 2147483646 (⟨1, 7, 1⟩ : MutexState) =
      some (.ok ⟨1, 7, (1 : Int) + (2147483646 : Nat)⟩) :=
    lockN_reenter 7 2147483646 1 (by norm_num)
      (by push_cast; norm_num [MAX_RECURSION_COUNT])
  have s2' : lockN 7 2147483646 (⟨1, 7, 1⟩ : MutexState) =
      some (.ok ⟨1, 7, 2147483647⟩) := by
    rw [s2]
    norm_num
  have s3 : lockN 7 (0 + 1) (⟨1, 7, 2147483647⟩ : MutexState) =
      some (.error .MUTEX_RECURSION_COUNT_OVERFLOW) := by decide
  calc lockN 7 2147483648 initState
      = lockN 7 (1 + 2147483647) initState := by norm_num
    _ = lockN 7 2147483647 ⟨1, 7, 1⟩ :=
        lockN_ok_then 7 1 2147483647 initState ⟨1, 7, 1⟩ s1
    _ = lockN 7 (2147483646 + 1) ⟨1, 7, 1⟩ := by norm_num
    _ = lockN 7 1 ⟨1, 7, 2147483647⟩ :=
        lockN_ok_then 7 2147483646 1 _ _ s2'
    _ = some (.error .MUTEX_RECURSION_COUNT_OVERFLOW) := s3

/-- C2, amended to `1 ≤ N ≤ 2^31 - 1`: `N` sequential `lock()` calls by one
thread on a fresh slot leave `flag = 1`, `owner = me`,
`recursionCount = N`; the first `k < N` subsequent `unlock()` calls each
lower the count by exactly one (to `N - k`) while keeping `flag`/`owner`;
and after exactly `N` unlocks all three cells are `0`. -/
theorem reentrancy_balanced (me : Int) (N : Nat) (h1 : 1 ≤ N)
    (h2 : N ≤ 2147483647) :
    lockN me N initState = some (.ok ⟨1, me, (N : Int)⟩) ∧
    (∀ k : Nat, k < N →
      unlockN me k ⟨1, me, (N : Int)⟩ = (none, ⟨1, me, (N : Int) - k⟩)) ∧
    unlockN me N ⟨1, me, (N : Int)⟩ = (none, initState) := by
  obtain ⟨N', rfl⟩ : ∃ N', N = N' + 1 := ⟨N - 1, by omega⟩
  refine ⟨?_, ?_, ?_⟩
  · have hlock1 : lock me initState = some (.ok ⟨1, me, 1⟩) := by
      simp [lock, initState]
    have hfirst : lockN me (0 + 1) initState = some (.ok ⟨1, me, 1⟩) := by
      rw [lockN_succ, hlock1]
      rfl
    have hrest := lockN_reenter me N' 1 (by norm_num)
      (by push_cast at h2 ⊢; norm_num [MAX_RECURSION_COUNT] at h2 ⊢; omega)
    calc lockN me (N' + 1) initState
        = lockN me (1 + N') initState := by rw [Nat.add_comm]
      _ = lockN me N' ⟨1, me, 1⟩ := lockN_ok_then me 1 N' _ _ hfirst
      _ = some (.ok ⟨1, me, (1 : Int) + N'⟩) := hrest
      _ = some (.ok ⟨1, me, ((N' + 1 : Nat) : Int)⟩) := by
          have : (1 : Int) + N' = ((N' + 1 : Nat) : Int) := by
            push_cast
            ring
          rw [this]
  · intro k hk
    exact unlockN_dec me k _ (by push_cast; omega)
  · have hdec := unlockN_dec me N' ((N' + 1 : Nat) : Int) (by push_cast; omega)
    have hone : ((N' + 1 : Nat) : Int) - N' = 1 := by
      push_cast
      ring
    have hu1 : unlock me ⟨1, me, 1⟩ = (none, ⟨0, 0, 0⟩, true) := by
      norm_num [unlock]
    have hlast : unlockN me (0 + 1) (⟨1, me, ((N' + 1 : Nat) : Int) - N'⟩ : MutexState) =
        (none, initState) := by
      rw [hone, unlockN_succ, hu1]
      rfl
    calc unlockN me (N' + 1) ⟨1, me, ((N' + 1 : Nat) : Int)⟩
        = unlockN me 1 ⟨1, me, ((N' + 1 : Nat) : Int) - N'⟩ :=
          unlockN_none_then me N' 1 _ _ hdec
      _ = (none, initState) := hlast

/-- Witness for `reentrancy_balanced` at `N = 2`, thread 7 (the test
suite's double-lock scenario). -/
theorem reentrancy_balanced_witness :
    lockN 7 2 initState = some (.ok ⟨1, 7, ((2 : Nat) : Int)⟩) ∧
    unlockN 7 1 ⟨1, 7, ((2 : Nat) : Int)⟩ =
      (none, ⟨1, 7, ((2 : Nat) : Int) - ((1 : Nat) : Int)⟩) ∧
    unlockN 7 2 ⟨1, 7, ((2 : Nat) : Int)⟩ = (none, initState) := by
  obtain ⟨a, b, c⟩ := reentrancy_balanced 7 2 (by norm_num) (by norm_num)
  exact ⟨a, b 1 (by norm_num), c⟩

end WorkerMutex

namespace WorkerMutexSrc

/-- C9, counterexample: at `threadId = 2^31 - 1` the value the owner cell
receives is `ToInt32((threadId | 0) + 1) = -2^31` — it differs from
`(threadId | 0) + 1` and is not strictly positive, so the claim fails as
universally stated over thread identities. -/
theorem storedOwner_wrap_counterexample :
    storedOwner 2147483647 = -2147483648 ∧
    storedOwner 2147483647 ≠ selfId 2147483647 ∧
    ¬ (0 < storedOwner 2147483647) := by
  have h1 : selfId 2147483647 = 2147483648 := by
    norm_num [selfId, toInt32]
  have h2 : storedOwner 2147483647 = -2147483648 := by
    rw [storedOwner, h1]
    norm_num [toInt32]
  refine ⟨h2, by rw [h2, h1]; norm_num, by rw [h2]; norm_num⟩

/-- C9, amended to thread identities below `2^31 - 1` (every identity the
runtime assigns in practice; `| 0` wraps beyond that): the owner value
`lock()`/`lockAsync()` store is `(threadId | 0) + 1 = threadId + 1`, which
is strictly positive, so an owner cell equal to `0` uniquely denotes the
unowned slot — including for the main thread, whose `threadId` is `0` —
and the fast-path test `owner === me` never succeeds on an unlocked
(`owner = 0`) slot. -/
theorem storedOwner_spec (t : Nat) (h : t ≤ 2147483646) :
    storedOwner t = (t : Int) + 1 ∧
    0 < storedOwner t ∧
    (∀ owner : Int, owner = 0 → lockFastPath owner (selfId t) = false) := by
  have ht32 : toInt32 (t : Int) = (t : Int) := by
    have hm : (t : Int) % 4294967296 = (t : Int) :=
      Int.emod_eq_of_lt (by omega) (by omega)
    simp only [toInt32, hm]
    rw [if_pos (by omega)]
  have hself : selfId t = (t : Int) + 1 := by
    simp only [selfId, ht32]
  have hstored : storedOwner t = (t : Int) + 1 := by
    have hm : ((t : Int) + 1) % 4294967296 = (t : Int) + 1 :=
      Int.emod_eq_of_lt (by omega) (by omega)
    simp only [storedOwner, hself, toInt32, hm]
    rw [if_pos (by omega)]
  refine ⟨hstored, by rw [hstored]; omega, ?_⟩
  rintro owner rfl
  simp only [lockFastPath, hself]
  simp only [beq_eq_false_iff_ne, ne_eq]
  omega

/-- Witness for `storedOwner_spec` at the main thread (`threadId = 0`):
the stored owner id is `1`, positive, and the fast path rejects an
unlocked slot. -/
theorem storedOwner_spec_witness :
    storedOwner 0 = (0 : Int) + 1 ∧
    0 < storedOwner 0 ∧
    lockFastPath 0 (selfId 0) = false := by
  obtain ⟨a, b, c⟩ := storedOwner_spec 0 (by norm_num)
  exact ⟨by exact_mod_cast a, b, c 0 rfl⟩

end WorkerMutexSrc
